import Mathlib

/-!
Verification of the FPL squad optimizer (`flask_app/utils/optimizer.py`).

The optimizer receives a dataframe of players (index = player id; columns
`name`, `position`, `price`, `predicted_points`, and optionally `team`),
formulates a 0/1 integer program (maximize total predicted points subject to
a budget cap, squad size 15, position quotas GK:2/DEF:5/MID:5/FWD:3, and at
most 3 players per team when the team column is present), solves it with an
exact solver (CBC), and summarizes the selected squad.

Embedding choices:
* the decimal prices/points of the source are modelled as exact integers in
  tenths of a currency unit / point (the source arithmetic on them is only
  summation and comparison, which the scaling preserves exactly);
* the dataframe is a `Pool`: its rows in index order plus a flag recording
  whether the `team` column is present;
* the call to the exact ILP solver is embedded as an exhaustive search over
  all 0/1 choices (`search`), returning a selection of maximal total
  predicted points among those satisfying exactly the constraints the source
  adds to the problem (`feasible`); a branch on which fewer than 15 picks
  are still reachable is cut, which removes only selections that the
  squad-size constraint already excludes.
-/

/-- A row of the players dataframe: id (the index), display name, team,
position, price and predicted points (the two latter in tenths). -/
structure Player where
  id : Nat
  name : String
  team : String
  position : String
  price : Int
  predicted_points : Int
deriving DecidableEq

/-- The players dataframe: rows in index order, and whether the optional
`team` column is present. -/
structure Pool where
  players : List Player
  hasTeam : Bool
deriving DecidableEq

def posGK : String := "GK"
def posDEF : String := "DEF"
def posMID : String := "MID"
def posFWD : String := "FWD"

/-- Number of selected players of a given position (the per-position
quota constraints of lines 40-43 count exactly these). -/
def countPos (c : String) (s : List Player) : Nat :=
  (s.filter (fun p => p.position = c)).length

/-- Total price of a selection (line 34 / line 64). -/
def totalPrice (s : List Player) : Int :=
  (s.map Player.price).sum

/-- Total predicted points of a selection (objective, line 31 / line 65). -/
def totalPoints (s : List Player) : Int :=
  (s.map Player.predicted_points).sum

/-- Team values the solve constrains over: `set(teams.values())` where
`teams` is empty when the dataframe has no `team` column (lines 15, 45-50). -/
def poolTeams (players : List Player) (hasTeam : Bool) : List String :=
  if hasTeam then (players.map Player.team).dedup else []

/-- The constraint set of the integer program, exactly as added to the
problem in lines 33-50: total price within budget, exactly 15 players,
2 GK / 5 DEF / 5 MID / 3 FWD, and at most 3 players per team value
(vacuous when the team column is absent, since then `teamVals = []`). -/
def feasible (teamVals : List String) (budget : Int) (s : List Player) : Bool :=
  totalPrice s ≤ budget &&
  s.length == 15 &&
  countPos posGK s == 2 && countPos posDEF s == 5 &&
  countPos posMID s == 5 && countPos posFWD s == 3 &&
  teamVals.all (fun t => (s.filter (fun p => p.team = t)).length ≤ 3)

/-- Keep the better of two candidate solutions (higher total predicted
points; the first on ties). -/
def better (a b : Option (List Player)) : Option (List Player) :=
  match a, b with
  | none, b => b
  | some x, none => some x
  | some x, some y => if totalPoints x < totalPoints y then some y else some x

/-- Exhaustive 0/1 search embedding the exact ILP solve of line 53: walk the
remaining players, branching on taking or skipping each, and keep a
best feasible completed selection. A branch in which the 15-player squad
size is no longer reachable is cut; `search_complete` below proves the cut
loses no feasible selection. `chosen` is kept reversed, so reported
selections are in dataframe index order, as `selected_ids` is (line 60). -/
def search (teamVals : List String) (budget : Int) :
    List Player → List Player → Option (List Player)
  | [], chosen =>
      if feasible teamVals budget chosen.reverse then some chosen.reverse else none
  | p :: rest, chosen =>
      if chosen.length + (p :: rest).length < 15 then none
      else better (search teamVals budget rest (p :: chosen))
        (search teamVals budget rest chosen)

/-- The solved selection: a feasible selection of maximal total predicted
points, or `none` when the program is infeasible (CBC status ≠ 1). -/
def bestSquad (players : List Player) (hasTeam : Bool) (budget : Int) :
    Option (List Player) :=
  search (poolTeams players hasTeam) budget players []

/-- The per-player dictionary of lines 74-80. -/
structure PlayerInfo where
  name : String
  team : String
  price : Int
  predicted_points : Int
deriving DecidableEq

def unknownTeam : String := "Unknown"

/-- Lines 74-80: `teams.get(pid, 'Unknown')` falls back to `'Unknown'`
exactly when the dataframe has no team column. -/
def playerInfo (hasTeam : Bool) (p : Player) : PlayerInfo :=
  { name := p.name
    team := if hasTeam then p.team else unknownTeam
    price := p.price
    predicted_points := p.predicted_points }

/-- Stable descending insertion: the new element goes after every already
placed element with greater-or-equal points. -/
def insertDesc (p : PlayerInfo) : List PlayerInfo → List PlayerInfo
  | [] => [p]
  | q :: l => if q.predicted_points < p.predicted_points then p :: q :: l
      else q :: insertDesc p l

/-- Stable sort by descending predicted points, as
`sort(key=..., reverse=True)` does in line 92: elements with equal points
keep their relative order. -/
def sortByPointsDesc (l : List PlayerInfo) : List PlayerInfo :=
  l.foldl (fun acc p => insertDesc p acc) []

/-- Running maximum of Python's `max(..., key=points)`: a later element
replaces the current best only when its points are strictly greater. -/
def foldMax (acc : PlayerInfo) : List PlayerInfo → PlayerInfo
  | [] => acc
  | p :: xs =>
      foldMax (if acc.predicted_points < p.predicted_points then p else acc) xs

/-- Python's `max(..., key=points)` of line 96: the first element attaining
the maximal points. -/
def maxInfo : List PlayerInfo → Option PlayerInfo
  | [] => none
  | x :: xs => some (foldMax x xs)

/-- The squad dictionary built in lines 63-103 on success. -/
structure SquadResult where
  total_cost : Int
  total_predicted : Int
  goalkeepers : List PlayerInfo
  defenders : List PlayerInfo
  midfielders : List PlayerInfo
  forwards : List PlayerInfo
  captain : String
  captain_points : Int
  total_with_captain : Int
deriving DecidableEq

def noName : String := ""

/-- The members of a summarized squad, in the order `all_players` is built
in line 95: goalkeepers, defenders, midfielders, forwards. -/
def squadMembers (sq : SquadResult) : List PlayerInfo :=
  sq.goalkeepers ++ sq.defenders ++ sq.midfielders ++ sq.forwards

/-- Lines 63-103: organize the selection by position (goalkeepers in
selection order, the other three lists sorted by descending points), pick
the captain as the first maximal-points member of the concatenated lists,
and total up. The `getD` defaults are never reached on a feasible selection
(it has two goalkeepers, hence members). -/
def buildSquad (hasTeam : Bool) (sel : List Player) : SquadResult :=
  let gks := (sel.filter (fun p => p.position = posGK)).map (playerInfo hasTeam)
  let defs := sortByPointsDesc
    ((sel.filter (fun p => p.position = posDEF)).map (playerInfo hasTeam))
  let mids := sortByPointsDesc
    ((sel.filter (fun p => p.position = posMID)).map (playerInfo hasTeam))
  let fwds := sortByPointsDesc
    ((sel.filter (fun p => p.position = posFWD)).map (playerInfo hasTeam))
  let cap := maxInfo (gks ++ defs ++ mids ++ fwds)
  { total_cost := totalPrice sel
    total_predicted := totalPoints sel
    goalkeepers := gks
    defenders := defs
    midfielders := mids
    forwards := fwds
    captain := (cap.map PlayerInfo.name).getD noName
    captain_points := (cap.map PlayerInfo.predicted_points).getD 0
    total_with_captain := totalPoints sel + (cap.map PlayerInfo.predicted_points).getD 0 }

def noSolutionMsg : String := "No optimal solution found"

/-- Result of `optimize_squad`: either the failure dictionary of line 57 or
the squad dictionary of lines 63-103. -/
inductive OptResult where
  | failed (message : String)
  | success (squad : SquadResult)
deriving DecidableEq

/-- `FPLOptimizer.optimize_squad` (lines 9-105): solve the integer program;
on solver status ≠ 1 return the failure dictionary, otherwise the summarized
squad. -/
def optimize_squad (pool : Pool) (budget : Int) : OptResult :=
  match bestSquad pool.players pool.hasTeam budget with
  | none => .failed noSolutionMsg
  | some sel => .success (buildSquad pool.hasTeam sel)

/-- One entry of the list returned by `optimize_multiple_squads`
(lines 119-124): round metadata plus the merged squad dictionary. -/
structure SquadEntry where
  squad_number : Nat
  squad_name : String
  description : String
  squad : SquadResult
deriving DecidableEq

def squadNameFor (i : Nat) : String := "Squad Option " ++ toString i

def descriptionFor (i : Nat) : String :=
  "Optimal squad #" ++ toString i ++ " maximizing predicted points"

/-- Lines 130-135: after a successful round, every player of the current
`available` pool whose display name equals the name of some selected squad
member has its id added to `excluded_players`. -/
def excludeUpdate (available : List Player) (sq : SquadResult) (excluded : List Nat) :
    List Nat :=
  excluded ++ (available.filter (fun p =>
    ((sq.goalkeepers ++ sq.defenders ++ sq.midfielders ++ sq.forwards).map
      PlayerInfo.name).contains p.name)).map Player.id

/-- The loop of `optimize_multiple_squads` (lines 111-142), instrumented to
also record the underlying selected players of each round (the source has
them in scope as `selected_ids`); `k` counts the remaining rounds and `i`
the rounds already done, so `i + 1` numbers the next squad. -/
def multiGoFull (players : List Player) (hasTeam : Bool) (budget : Int) :
    Nat → Nat → List Nat → List (SquadEntry × List Player)
  | 0, _, _ => []
  | k + 1, i, excluded =>
      let available := players.filter (fun p => !(excluded.contains p.id))
      if available.length < 15 then []
      else
        match bestSquad available hasTeam budget with
        | none => []
        | some sel =>
            let sq := buildSquad hasTeam sel
            (⟨i + 1, squadNameFor (i + 1), descriptionFor (i + 1), sq⟩, sel) ::
              multiGoFull players hasTeam budget k (i + 1)
                (excludeUpdate available sq excluded)

/-- `optimize_multiple_squads` with each round's underlying selection kept
alongside the returned entry. -/
def optimize_multiple_squads_full (pool : Pool) (num_squads : Nat) (budget : Int) :
    List (SquadEntry × List Player) :=
  multiGoFull pool.players pool.hasTeam budget num_squads 0 []

/-- `FPLOptimizer.optimize_multiple_squads` (lines 109-144). -/
def optimize_multiple_squads (pool : Pool) (num_squads : Nat) (budget : Int) :
    List SquadEntry :=
  (optimize_multiple_squads_full pool num_squads budget).map Prod.fst

/-- All sublists of a list; used to phrase brute-force enumeration over all
candidate selections from a pool. -/
def subsets : List α → List (List α)
  | [] => [[]]
  | a :: l => (subsets l).map (a :: ·) ++ subsets l

/-! Concrete fixtures used to witness and refute claims. -/

/-- A 15-player pool meeting every quota exactly, five teams of three,
total price 950 (95.0 units), all points distinct. -/
def demoPlayers : List Player :=
  [⟨1, "g1", "A", "GK", 40, 30⟩, ⟨2, "g2", "A", "GK", 40, 20⟩,
   ⟨3, "d1", "A", "DEF", 50, 40⟩, ⟨4, "d2", "B", "DEF", 50, 41⟩,
   ⟨5, "d3", "B", "DEF", 50, 42⟩, ⟨6, "d4", "B", "DEF", 50, 43⟩,
   ⟨7, "d5", "C", "DEF", 50, 44⟩,
   ⟨8, "m1", "C", "MID", 70, 60⟩, ⟨9, "m2", "C", "MID", 70, 61⟩,
   ⟨10, "m3", "D", "MID", 70, 62⟩, ⟨11, "m4", "D", "MID", 70, 63⟩,
   ⟨12, "m5", "D", "MID", 70, 64⟩,
   ⟨13, "f1", "E", "FWD", 90, 70⟩, ⟨14, "f2", "E", "FWD", 90, 71⟩,
   ⟨15, "f3", "E", "FWD", 90, 72⟩]

/-- A 15-player pool whose only feasible squad is the whole pool, in which
the goalkeeper Zed (id 14) and the defender Alice (id 1) tie for the
maximal predicted points (100). -/
def c6players : List Player :=
  [⟨2, "Gb", "t1", "GK", 40, 50⟩, ⟨14, "Zed", "t1", "GK", 40, 100⟩,
   ⟨1, "Alice", "t1", "DEF", 50, 100⟩, ⟨3, "Db", "t2", "DEF", 50, 41⟩,
   ⟨4, "Dc", "t2", "DEF", 50, 42⟩, ⟨5, "Dd", "t2", "DEF", 50, 43⟩,
   ⟨6, "De", "t3", "DEF", 50, 44⟩,
   ⟨7, "Ma", "t3", "MID", 60, 45⟩, ⟨8, "Mb", "t3", "MID", 60, 46⟩,
   ⟨9, "Mc", "t4", "MID", 60, 47⟩, ⟨10, "Md", "t4", "MID", 60, 48⟩,
   ⟨11, "Me", "t4", "MID", 60, 49⟩,
   ⟨12, "Fa", "t5", "FWD", 90, 51⟩, ⟨13, "Fb", "t5", "FWD", 90, 52⟩,
   ⟨15, "Fc", "t5", "FWD", 90, 53⟩]

/-- A 15-player pool whose players all share one club, used with a pool
that carries no team column. -/
def c9players : List Player :=
  [⟨1, "p1", "Leeds", "GK", 40, 30⟩, ⟨2, "p2", "Leeds", "GK", 40, 20⟩,
   ⟨3, "p3", "Leeds", "DEF", 50, 40⟩, ⟨4, "p4", "Leeds", "DEF", 50, 41⟩,
   ⟨5, "p5", "Leeds", "DEF", 50, 42⟩, ⟨6, "p6", "Leeds", "DEF", 50, 43⟩,
   ⟨7, "p7", "Leeds", "DEF", 50, 44⟩,
   ⟨8, "p8", "Leeds", "MID", 70, 60⟩, ⟨9, "p9", "Leeds", "MID", 70, 61⟩,
   ⟨10, "p10", "Leeds", "MID", 70, 62⟩, ⟨11, "p11", "Leeds", "MID", 70, 63⟩,
   ⟨12, "p12", "Leeds", "MID", 70, 64⟩,
   ⟨13, "p13", "Leeds", "FWD", 90, 70⟩, ⟨14, "p14", "Leeds", "FWD", 90, 71⟩,
   ⟨15, "p15", "Leeds", "FWD", 90, 72⟩]

/-- A 15-player pool with a single goalkeeper: the GK quota of 2 is
unsatisfiable (category shortfall). -/
def c8shortPlayers : List Player :=
  [⟨1, "g1", "A", "GK", 40, 30⟩,
   ⟨2, "d0", "A", "DEF", 50, 39⟩,
   ⟨3, "d1", "A", "DEF", 50, 40⟩, ⟨4, "d2", "B", "DEF", 50, 41⟩,
   ⟨5, "d3", "B", "DEF", 50, 42⟩, ⟨6, "d4", "B", "DEF", 50, 43⟩,
   ⟨7, "d5", "C", "DEF", 50, 44⟩,
   ⟨8, "m1", "C", "MID", 70, 60⟩, ⟨9, "m2", "C", "MID", 70, 61⟩,
   ⟨10, "m3", "D", "MID", 70, 62⟩, ⟨11, "m4", "D", "MID", 70, 63⟩,
   ⟨12, "m5", "D", "MID", 70, 64⟩,
   ⟨13, "f1", "E", "FWD", 90, 70⟩, ⟨14, "f2", "E", "FWD", 90, 71⟩,
   ⟨15, "f3", "E", "FWD", 90, 72⟩]

/-- A 15-player pool meeting every quota but with four players of team A:
the per-team cap of 3 is unsatisfiable. -/
def c8teamPlayers : List Player :=
  [⟨1, "g1", "A", "GK", 40, 30⟩, ⟨2, "g2", "A", "GK", 40, 20⟩,
   ⟨3, "d1", "A", "DEF", 50, 40⟩, ⟨4, "d2", "A", "DEF", 50, 41⟩,
   ⟨5, "d3", "B", "DEF", 50, 42⟩, ⟨6, "d4", "B", "DEF", 50, 43⟩,
   ⟨7, "d5", "B", "DEF", 50, 44⟩,
   ⟨8, "m1", "C", "MID", 70, 60⟩, ⟨9, "m2", "C", "MID", 70, 61⟩,
   ⟨10, "m3", "C", "MID", 70, 62⟩, ⟨11, "m4", "D", "MID", 70, 63⟩,
   ⟨12, "m5", "D", "MID", 70, 64⟩,
   ⟨13, "f1", "E", "FWD", 90, 70⟩, ⟨14, "f2", "E", "FWD", 90, 71⟩,
   ⟨15, "f3", "E", "FWD", 90, 72⟩]

/-- A 16-player pool with two distinct candidates both displayed as Bob:
the goalkeeper id 1 (selected by the optimal solve) and the goalkeeper
id 16 (points 0, never selected). -/
def c3players : List Player :=
  [⟨1, "Bob", "A", "GK", 40, 50⟩, ⟨2, "g2", "A", "GK", 40, 49⟩,
   ⟨3, "d1", "A", "DEF", 50, 40⟩, ⟨4, "d2", "B", "DEF", 50, 41⟩,
   ⟨5, "d3", "B", "DEF", 50, 42⟩, ⟨6, "d4", "B", "DEF", 50, 43⟩,
   ⟨7, "d5", "C", "DEF", 50, 44⟩,
   ⟨8, "m1", "C", "MID", 70, 60⟩, ⟨9, "m2", "C", "MID", 70, 61⟩,
   ⟨10, "m3", "D", "MID", 70, 62⟩, ⟨11, "m4", "D", "MID", 70, 63⟩,
   ⟨12, "m5", "D", "MID", 70, 64⟩,
   ⟨13, "f1", "E", "FWD", 90, 70⟩, ⟨14, "f2", "E", "FWD", 90, 71⟩,
   ⟨15, "f3", "E", "FWD", 90, 72⟩,
   ⟨16, "Bob", "F", "GK", 40, 0⟩]

/-- The selection the optimal solve makes from `c3players`: the fifteen
players of ids 1 to 15, in pool order. -/
def c3sel : List Player := c3players.take 15

/-- A pool of three players: far fewer than a squad needs. -/
def tinyPlayers : List Player :=
  [⟨1, "g1", "A", "GK", 40, 30⟩, ⟨2, "d1", "A", "DEF", 50, 40⟩,
   ⟨3, "m1", "A", "MID", 70, 60⟩]

theorem better_eq_some {a b : Option (List Player)} {r : List Player}
    (h : better a b = some r) : a = some r ∨ b = some r := by
  cases a with
  | none => exact Or.inr h
  | some x =>
    cases b with
    | none => exact Or.inl h
    | some y =>
      simp only [better] at h
      split at h
      · exact Or.inr h
      · exact Or.inl h

theorem better_left {a b : Option (List Player)} {x : List Player}
    (h : a = some x) :
    ∃ r, better a b = some r ∧ totalPoints x ≤ totalPoints r := by
  subst h
  cases b with
  | none => exact ⟨x, rfl, le_refl _⟩
  | some y =>
    simp only [better]
    split
    · exact ⟨y, rfl, le_of_lt (by assumption)⟩
    · exact ⟨x, rfl, le_refl _⟩

theorem better_right {a b : Option (List Player)} {y : List Player}
    (h : b = some y) :
    ∃ r, better a b = some r ∧ totalPoints y ≤ totalPoints r := by
  subst h
  cases a with
  | none => exact ⟨y, rfl, le_refl _⟩
  | some x =>
    simp only [better]
    split
    · exact ⟨y, rfl, le_refl _⟩
    · exact ⟨x, rfl, le_of_not_lt (by assumption)⟩

theorem feasible_iff {tv : List String} {bud : Int} {s : List Player} :
    feasible tv bud s = true ↔
      totalPrice s ≤ bud ∧ s.length = 15 ∧ countPos posGK s = 2 ∧
      countPos posDEF s = 5 ∧ countPos posMID s = 5 ∧ countPos posFWD s = 3 ∧
      ∀ t ∈ tv, (s.filter (fun p => p.team = t)).length ≤ 3 := by
  simp only [feasible, Bool.and_eq_true, decide_eq_true_eq, beq_iff_eq,
    List.all_eq_true, and_assoc]

theorem feasible_length {tv : List String} {bud : Int} {s : List Player}
    (h : feasible tv bud s = true) : s.length = 15 :=
  (feasible_iff.mp h).2.1

theorem search_sound {tv : List String} {bud : Int} :
    ∀ {rest chosen r : List Player}, search tv bud rest chosen = some r →
      feasible tv bud r = true ∧ ∃ t, List.Sublist t rest ∧ r = chosen.reverse ++ t := by
  intro rest
  induction rest with
  | nil =>
    intro chosen r h
    simp only [search] at h
    split at h
    · cases h
      exact ⟨by assumption, [], List.Sublist.refl _, by simp⟩
    · cases h
  | cons p rest ih =>
    intro chosen r h
    simp only [search] at h
    split at h
    · cases h
    · rcases better_eq_some h with h1 | h2
      · obtain ⟨hf, t, hsub, heq⟩ := ih h1
        refine ⟨hf, p :: t, List.Sublist.cons₂ _ hsub, ?_⟩
        simpa using heq
      · obtain ⟨hf, t, hsub, heq⟩ := ih h2
        exact ⟨hf, t, List.Sublist.cons _ hsub, heq⟩

theorem search_complete {tv : List String} {bud : Int} :
    ∀ {rest chosen t : List Player}, List.Sublist t rest →
      feasible tv bud (chosen.reverse ++ t) = true →
      ∃ r, search tv bud rest chosen = some r ∧
        totalPoints (chosen.reverse ++ t) ≤ totalPoints r := by
  intro rest
  induction rest with
  | nil =>
    intro chosen t hsub hf
    rw [List.sublist_nil.mp hsub] at hf ⊢
    rw [List.append_nil] at hf ⊢
    exact ⟨chosen.reverse, by simp only [search, hf, if_true], le_refl _⟩
  | cons p rest ih =>
    intro chosen t hsub hf
    have hlen : (chosen.reverse ++ t).length = 15 := feasible_length hf
    have hle : t.length ≤ (p :: rest).length := hsub.length_le
    have hnp : ¬ (chosen.length + (p :: rest).length < 15) := by
      simp only [List.length_append, List.length_reverse] at hlen
      omega
    cases hsub with
    | cons _ hsub' =>
      obtain ⟨r, hr, hpts⟩ := ih hsub' hf
      obtain ⟨r', hr', hpts'⟩ := @better_right _ (search tv bud rest chosen) _ hr
      exact ⟨r', by simp only [search, if_neg hnp]; exact hr', le_trans hpts hpts'⟩
    | cons₂ _ hsub' =>
      rename_i t'
      have heq : chosen.reverse ++ p :: t' = (p :: chosen).reverse ++ t' := by simp
      rw [heq] at hf
      obtain ⟨r, hr, hpts⟩ := ih hsub' hf
      obtain ⟨r', hr', hpts'⟩ := @better_left _ (search tv bud rest chosen) _ hr
      refine ⟨r', by simp only [search, if_neg hnp]; exact hr', ?_⟩
      rw [heq]
      exact le_trans hpts hpts'

theorem bestSquad_sound {players : List Player} {ht : Bool} {bud : Int}
    {sel : List Player} (h : bestSquad players ht bud = some sel) :
    List.Sublist sel players ∧ feasible (poolTeams players ht) bud sel = true := by
  obtain ⟨hf, t, hsub, heq⟩ := search_sound h
  simp only [List.reverse_nil, List.nil_append] at heq
  subst heq
  exact ⟨hsub, hf⟩

theorem bestSquad_complete {players : List Player} {ht : Bool} {bud : Int}
    {t : List Player} (hsub : List.Sublist t players)
    (hf : feasible (poolTeams players ht) bud t = true) :
    ∃ sel, bestSquad players ht bud = some sel ∧ totalPoints t ≤ totalPoints sel := by
  have := @search_complete (poolTeams players ht) bud players [] t hsub
    (by simpa using hf)
  simpa [bestSquad] using this


theorem countPos_cons (c : String) (a : Player) (s : List Player) :
    countPos c (a :: s) = (if a.position = c then 1 else 0) + countPos c s := by
  by_cases h : a.position = c
  · simp [countPos, List.filter_cons, h, Nat.add_comm]
  · simp [countPos, List.filter_cons, h]

theorem countPos_sum_cover :
    ∀ s : List Player,
      countPos posGK s + countPos posDEF s + countPos posMID s + countPos posFWD s ≤ s.length ∧
      (countPos posGK s + countPos posDEF s + countPos posMID s + countPos posFWD s = s.length →
        ∀ p ∈ s, p.position = posGK ∨ p.position = posDEF ∨ p.position = posMID ∨
          p.position = posFWD) := by
  intro s
  induction s with
  | nil => simp [countPos]
  | cons a s ih =>
    obtain ⟨ihle, ihmem⟩ := ih
    rw [countPos_cons posGK, countPos_cons posDEF, countPos_cons posMID, countPos_cons posFWD]
    by_cases hgk : a.position = posGK
    · have h2 : ¬ a.position = posDEF := by rw [hgk]; decide
      have h3 : ¬ a.position = posMID := by rw [hgk]; decide
      have h4 : ¬ a.position = posFWD := by rw [hgk]; decide
      rw [if_pos hgk, if_neg h2, if_neg h3, if_neg h4]
      simp only [List.length_cons]
      refine ⟨by omega, fun heq p hp => ?_⟩
      rcases List.mem_cons.mp hp with h | h
      · subst h; exact Or.inl hgk
      · exact ihmem (by omega) p h
    · by_cases hdf : a.position = posDEF
      · have h3 : ¬ a.position = posMID := by rw [hdf]; decide
        have h4 : ¬ a.position = posFWD := by rw [hdf]; decide
        rw [if_neg hgk, if_pos hdf, if_neg h3, if_neg h4]
        simp only [List.length_cons]
        refine ⟨by omega, fun heq p hp => ?_⟩
        rcases List.mem_cons.mp hp with h | h
        · subst h; exact Or.inr (Or.inl hdf)
        · exact ihmem (by omega) p h
      · by_cases hmd : a.position = posMID
        · have h4 : ¬ a.position = posFWD := by rw [hmd]; decide
          rw [if_neg hgk, if_neg hdf, if_pos hmd, if_neg h4]
          simp only [List.length_cons]
          refine ⟨by omega, fun heq p hp => ?_⟩
          rcases List.mem_cons.mp hp with h | h
          · subst h; exact Or.inr (Or.inr (Or.inl hmd))
          · exact ihmem (by omega) p h
        · by_cases hfw : a.position = posFWD
          · rw [if_neg hgk, if_neg hdf, if_neg hmd, if_pos hfw]
            simp only [List.length_cons]
            refine ⟨by omega, fun heq p hp => ?_⟩
            rcases List.mem_cons.mp hp with h | h
            · subst h; exact Or.inr (Or.inr (Or.inr hfw))
            · exact ihmem (by omega) p h
          · rw [if_neg hgk, if_neg hdf, if_neg hmd, if_neg hfw]
            simp only [List.length_cons]
            exact ⟨by omega, fun heq => by omega⟩

theorem feasible_pos_cover {tv : List String} {bud : Int} {s : List Player}
    (h : feasible tv bud s = true) :
    ∀ p ∈ s, p.position = posGK ∨ p.position = posDEF ∨ p.position = posMID ∨
      p.position = posFWD := by
  obtain ⟨-, hlen, h1, h2, h3, h4, -⟩ := feasible_iff.mp h
  exact (countPos_sum_cover s).2 (by rw [h1, h2, h3, h4, hlen])

theorem filter_four_perm :
    ∀ s : List Player,
      (∀ p ∈ s, p.position = posGK ∨ p.position = posDEF ∨ p.position = posMID ∨
        p.position = posFWD) →
      List.Perm
        (s.filter (fun p => p.position = posGK) ++ s.filter (fun p => p.position = posDEF) ++
          s.filter (fun p => p.position = posMID) ++ s.filter (fun p => p.position = posFWD)) s := by
  intro s
  induction s with
  | nil => simp
  | cons a s ih =>
    intro hall
    have ih' := ih (fun p hp => hall p (List.mem_cons_of_mem a hp))
    have ihA : List.Perm
        (s.filter (fun p => p.position = posGK) ++ (s.filter (fun p => p.position = posDEF) ++
          (s.filter (fun p => p.position = posMID) ++ s.filter (fun p => p.position = posFWD)))) s := by
      simpa [List.append_assoc] using ih'
    rcases hall a (List.mem_cons_self a s) with hgk | hdf | hmd | hfw
    · have h2 : ¬ a.position = posDEF := by rw [hgk]; decide
      have h3 : ¬ a.position = posMID := by rw [hgk]; decide
      have h4 : ¬ a.position = posFWD := by rw [hgk]; decide
      simp only [List.filter_cons, hgk, h2, h3, h4, decide_eq_true_eq, if_pos, if_neg,
        not_false_iff, List.cons_append, List.append_assoc]
      simp only [decide_eq_true_eq] at *
      exact List.Perm.cons a ihA
    · have h1 : ¬ a.position = posGK := by rw [hdf]; decide
      have h3 : ¬ a.position = posMID := by rw [hdf]; decide
      have h4 : ¬ a.position = posFWD := by rw [hdf]; decide
      simp only [List.filter_cons, hdf, h1, h3, h4, decide_eq_true_eq, if_pos, if_neg,
        not_false_iff, List.cons_append, List.append_assoc]
      exact List.Perm.trans List.perm_middle (List.Perm.cons a ihA)
    · have h1 : ¬ a.position = posGK := by rw [hmd]; decide
      have h2 : ¬ a.position = posDEF := by rw [hmd]; decide
      have h4 : ¬ a.position = posFWD := by rw [hmd]; decide
      simp only [List.filter_cons, hmd, h1, h2, h4, decide_eq_true_eq, if_pos, if_neg,
        not_false_iff, List.cons_append, List.append_assoc]
      exact (List.Perm.append_left _ List.perm_middle).trans
        (List.Perm.trans List.perm_middle (List.Perm.cons a ihA))
    · have h1 : ¬ a.position = posGK := by rw [hfw]; decide
      have h2 : ¬ a.position = posDEF := by rw [hfw]; decide
      have h3 : ¬ a.position = posMID := by rw [hfw]; decide
      simp only [List.filter_cons, hfw, h1, h2, h3, decide_eq_true_eq, if_pos, if_neg,
        not_false_iff, List.cons_append, List.append_assoc]
      exact (List.Perm.append_left _ (List.Perm.append_left _ List.perm_middle)).trans
        ((List.Perm.append_left _ List.perm_middle).trans
          (List.Perm.trans List.perm_middle (List.Perm.cons a ihA)))

theorem insertDesc_perm (p : PlayerInfo) :
    ∀ l : List PlayerInfo, (insertDesc p l).Perm (p :: l) := by
  intro l
  induction l with
  | nil => exact List.Perm.refl _
  | cons q l ih =>
    simp only [insertDesc]
    split
    · exact List.Perm.refl _
    · exact (ih.cons q).trans (List.Perm.swap p q l)

theorem sortInsert_perm :
    ∀ (l acc : List PlayerInfo),
      (l.foldl (fun acc p => insertDesc p acc) acc).Perm (acc ++ l) := by
  intro l
  induction l with
  | nil => intro acc; simp
  | cons p l ih =>
    intro acc
    refine List.Perm.trans (ih (insertDesc p acc)) ?_
    refine List.Perm.trans (List.Perm.append_right l (insertDesc_perm p acc)) ?_
    exact List.perm_middle.symm

theorem sortByPointsDesc_perm (l : List PlayerInfo) : (sortByPointsDesc l).Perm l := by
  simpa [sortByPointsDesc] using sortInsert_perm l []

theorem foldMax_spec :
    ∀ (xs : List PlayerInfo) (acc : PlayerInfo),
      ∃ l1 l2, acc :: xs = l1 ++ foldMax acc xs :: l2 ∧
        (∀ m ∈ l1, m.predicted_points < (foldMax acc xs).predicted_points) ∧
        ∀ m ∈ acc :: xs, m.predicted_points ≤ (foldMax acc xs).predicted_points := by
  intro xs
  induction xs with
  | nil =>
    intro acc
    exact ⟨[], [], rfl, by simp, by simp [foldMax]⟩
  | cons y xs ih =>
    intro acc
    by_cases hxy : acc.predicted_points < y.predicted_points
    · have hfold : foldMax acc (y :: xs) = foldMax y xs := by
        simp only [foldMax, if_pos hxy]
      obtain ⟨l1, l2, hdec, hlt, hle⟩ := ih y
      rw [hfold]
      refine ⟨acc :: l1, l2, by rw [List.cons_append, ← hdec], ?_, ?_⟩
      · intro m hm
        rcases List.mem_cons.mp hm with rfl | h
        · exact lt_of_lt_of_le hxy (hle y (List.mem_cons_self y xs))
        · exact hlt m h
      · intro m hm
        rcases List.mem_cons.mp hm with rfl | h
        · exact le_of_lt (lt_of_lt_of_le hxy (hle y (List.mem_cons_self y xs)))
        · exact hle m h
    · have hfold : foldMax acc (y :: xs) = foldMax acc xs := by
        simp only [foldMax, if_neg hxy]
      obtain ⟨l1, l2, hdec, hlt, hle⟩ := ih acc
      rw [hfold]
      cases l1 with
      | nil =>
        simp only [List.nil_append] at hdec
        have hc : foldMax acc xs = acc := (List.cons.injEq _ _ _ _ ▸ hdec).1.symm
        refine ⟨[], y :: xs, by rw [List.nil_append, hc], by simp, ?_⟩
        intro m hm
        rcases List.mem_cons.mp hm with rfl | h
        · exact le_of_eq (by rw [hc])
        · rcases List.mem_cons.mp h with rfl | h'
          · rw [hc]; exact le_of_not_lt hxy
          · exact hle m (List.mem_cons_of_mem acc h')
      | cons b l1' =>
        rw [List.cons_append] at hdec
        have hb : b = acc := ((List.cons.injEq _ _ _ _).mp hdec).1.symm
        have hxs : xs = l1' ++ foldMax acc xs :: l2 := ((List.cons.injEq _ _ _ _).mp hdec).2
        have hacc_lt : acc.predicted_points < (foldMax acc xs).predicted_points := by
          have := hlt b (List.mem_cons_self b l1')
          rwa [hb] at this
        refine ⟨acc :: y :: l1', l2, ?_, ?_, ?_⟩
        · rw [List.cons_append, List.cons_append, ← hxs]
        · intro m hm
          rcases List.mem_cons.mp hm with rfl | h
          · exact hacc_lt
          · rcases List.mem_cons.mp h with rfl | h'
            · exact lt_of_le_of_lt (le_of_not_lt hxy) hacc_lt
            · exact hlt m (List.mem_cons_of_mem b h')
        · intro m hm
          rcases List.mem_cons.mp hm with rfl | h
          · exact le_of_lt hacc_lt
          · rcases List.mem_cons.mp h with rfl | h'
            · exact le_trans (le_of_not_lt hxy) (le_of_lt hacc_lt)
            · exact hle m (List.mem_cons_of_mem acc h')

theorem maxInfo_spec {x : PlayerInfo} {xs : List PlayerInfo} :
    ∃ c l1 l2, maxInfo (x :: xs) = some c ∧ x :: xs = l1 ++ c :: l2 ∧
      (∀ m ∈ l1, m.predicted_points < c.predicted_points) ∧
      ∀ m ∈ x :: xs, m.predicted_points ≤ c.predicted_points := by
  obtain ⟨l1, l2, hdec, hlt, hle⟩ := foldMax_spec xs x
  exact ⟨foldMax x xs, l1, l2, rfl, hdec, hlt, hle⟩

theorem buildSquad_goalkeepers (ht : Bool) (sel : List Player) :
    (buildSquad ht sel).goalkeepers =
      (sel.filter (fun p => p.position = posGK)).map (playerInfo ht) := rfl

theorem buildSquad_defenders (ht : Bool) (sel : List Player) :
    (buildSquad ht sel).defenders =
      sortByPointsDesc ((sel.filter (fun p => p.position = posDEF)).map (playerInfo ht)) := rfl

theorem buildSquad_midfielders (ht : Bool) (sel : List Player) :
    (buildSquad ht sel).midfielders =
      sortByPointsDesc ((sel.filter (fun p => p.position = posMID)).map (playerInfo ht)) := rfl

theorem buildSquad_forwards (ht : Bool) (sel : List Player) :
    (buildSquad ht sel).forwards =
      sortByPointsDesc ((sel.filter (fun p => p.position = posFWD)).map (playerInfo ht)) := rfl

theorem buildSquad_total_cost (ht : Bool) (sel : List Player) :
    (buildSquad ht sel).total_cost = totalPrice sel := rfl

theorem buildSquad_total_predicted (ht : Bool) (sel : List Player) :
    (buildSquad ht sel).total_predicted = totalPoints sel := rfl

theorem buildSquad_captain (ht : Bool) (sel : List Player) :
    (buildSquad ht sel).captain =
      ((maxInfo (squadMembers (buildSquad ht sel))).map PlayerInfo.name).getD noName := rfl

theorem buildSquad_captain_points (ht : Bool) (sel : List Player) :
    (buildSquad ht sel).captain_points =
      ((maxInfo (squadMembers (buildSquad ht sel))).map PlayerInfo.predicted_points).getD 0 := rfl

theorem buildSquad_total_with_captain (ht : Bool) (sel : List Player) :
    (buildSquad ht sel).total_with_captain =
      totalPoints sel +
        ((maxInfo (squadMembers (buildSquad ht sel))).map PlayerInfo.predicted_points).getD 0 := rfl

theorem squadMembers_perm {ht : Bool} {sel : List Player}
    (hall : ∀ p ∈ sel, p.position = posGK ∨ p.position = posDEF ∨ p.position = posMID ∨
      p.position = posFWD) :
    (squadMembers (buildSquad ht sel)).Perm (sel.map (playerInfo ht)) := by
  have hperm : List.Perm
      ((sel.filter (fun p => p.position = posGK)).map (playerInfo ht) ++
        (sel.filter (fun p => p.position = posDEF)).map (playerInfo ht) ++
        (sel.filter (fun p => p.position = posMID)).map (playerInfo ht) ++
        (sel.filter (fun p => p.position = posFWD)).map (playerInfo ht))
      (sel.map (playerInfo ht)) := by
    have := (filter_four_perm sel hall).map (playerInfo ht)
    simpa [List.map_append] using this
  refine List.Perm.trans ?_ hperm
  unfold squadMembers
  rw [buildSquad_goalkeepers, buildSquad_defenders, buildSquad_midfielders, buildSquad_forwards]
  exact List.Perm.append
    (List.Perm.append
      (List.Perm.append (List.Perm.refl _) (sortByPointsDesc_perm _))
      (sortByPointsDesc_perm _))
    (sortByPointsDesc_perm _)

theorem squadMembers_points_sum {ht : Bool} {sel : List Player}
    (hall : ∀ p ∈ sel, p.position = posGK ∨ p.position = posDEF ∨ p.position = posMID ∨
      p.position = posFWD) :
    ((squadMembers (buildSquad ht sel)).map PlayerInfo.predicted_points).sum = totalPoints sel := by
  have h := ((@squadMembers_perm ht sel hall).map PlayerInfo.predicted_points).sum_eq
  rw [h, List.map_map]
  rfl

theorem squadMembers_length {ht : Bool} {sel : List Player}
    (hall : ∀ p ∈ sel, p.position = posGK ∨ p.position = posDEF ∨ p.position = posMID ∨
      p.position = posFWD) :
    (squadMembers (buildSquad ht sel)).length = sel.length := by
  rw [(@squadMembers_perm ht sel hall).length_eq, List.length_map]

theorem squadMembers_team_count {sel : List Player}
    (hall : ∀ p ∈ sel, p.position = posGK ∨ p.position = posDEF ∨ p.position = posMID ∨
      p.position = posFWD) (t : String) :
    ((squadMembers (buildSquad true sel)).filter (fun m => m.team = t)).length =
      (sel.filter (fun p => p.team = t)).length := by
  have h := ((@squadMembers_perm true sel hall).filter
    (fun m => decide (m.team = t))).length_eq
  rw [h, List.filter_map, List.length_map]
  rfl

theorem mem_subsets {α : Type} {t l : List α} : t ∈ subsets l ↔ List.Sublist t l := by
  induction l generalizing t with
  | nil =>
    simp only [subsets, List.mem_singleton]
    constructor
    · rintro rfl; exact List.Sublist.refl _
    · exact fun h => List.sublist_nil.mp h
  | cons a l ih =>
    simp only [subsets, List.mem_append, List.mem_map]
    constructor
    · rintro (⟨r, hr, rfl⟩ | h)
      · exact (ih.mp hr).cons₂ a
      · exact (ih.mp h).cons a
    · intro h
      cases h with
      | cons _ h' => exact Or.inr (ih.mpr h')
      | cons₂ _ h' => exact Or.inl ⟨_, ih.mpr h', rfl⟩

theorem optimize_squad_success {pool : Pool} {budget : Int} {sq : SquadResult}
    (h : optimize_squad pool budget = .success sq) :
    ∃ sel, bestSquad pool.players pool.hasTeam budget = some sel ∧
      sq = buildSquad pool.hasTeam sel := by
  unfold optimize_squad at h
  cases hbs : bestSquad pool.players pool.hasTeam budget with
  | none => rw [hbs] at h; cases h
  | some sel =>
    rw [hbs] at h
    cases h
    exact ⟨sel, rfl, rfl⟩

theorem optimize_squad_failed {pool : Pool} {budget : Int} {msg : String}
    (h : optimize_squad pool budget = .failed msg) :
    bestSquad pool.players pool.hasTeam budget = none ∧ msg = noSolutionMsg := by
  unfold optimize_squad at h
  cases hbs : bestSquad pool.players pool.hasTeam budget with
  | none =>
    rw [hbs] at h
    cases h
    exact ⟨rfl, rfl⟩
  | some sel => rw [hbs] at h; cases h

theorem buildSquad_gk_length (ht : Bool) (sel : List Player) :
    (buildSquad ht sel).goalkeepers.length = countPos posGK sel := by
  rw [buildSquad_goalkeepers, List.length_map]
  rfl

theorem buildSquad_def_length (ht : Bool) (sel : List Player) :
    (buildSquad ht sel).defenders.length = countPos posDEF sel := by
  rw [buildSquad_defenders, (sortByPointsDesc_perm _).length_eq, List.length_map]
  rfl

theorem buildSquad_mid_length (ht : Bool) (sel : List Player) :
    (buildSquad ht sel).midfielders.length = countPos posMID sel := by
  rw [buildSquad_midfielders, (sortByPointsDesc_perm _).length_eq, List.length_map]
  rfl

theorem buildSquad_fwd_length (ht : Bool) (sel : List Player) :
    (buildSquad ht sel).forwards.length = countPos posFWD sel := by
  rw [buildSquad_forwards, (sortByPointsDesc_perm _).length_eq, List.length_map]
  rfl

theorem squadMembers_mem_info {ht : Bool} {sel : List Player} {m : PlayerInfo}
    (hm : m ∈ squadMembers (buildSquad ht sel)) : ∃ p ∈ sel, m = playerInfo ht p := by
  unfold squadMembers at hm
  rw [buildSquad_goalkeepers, buildSquad_defenders, buildSquad_midfielders,
    buildSquad_forwards] at hm
  simp only [List.mem_append] at hm
  rcases hm with ((hg | hd) | hmid) | hf
  · obtain ⟨p, hp, rfl⟩ := List.mem_map.mp hg
    exact ⟨p, List.mem_of_mem_filter hp, rfl⟩
  · obtain ⟨p, hp, rfl⟩ := List.mem_map.mp ((sortByPointsDesc_perm _).mem_iff.mp hd)
    exact ⟨p, List.mem_of_mem_filter hp, rfl⟩
  · obtain ⟨p, hp, rfl⟩ := List.mem_map.mp ((sortByPointsDesc_perm _).mem_iff.mp hmid)
    exact ⟨p, List.mem_of_mem_filter hp, rfl⟩
  · obtain ⟨p, hp, rfl⟩ := List.mem_map.mp ((sortByPointsDesc_perm _).mem_iff.mp hf)
    exact ⟨p, List.mem_of_mem_filter hp, rfl⟩

theorem info_mem_squadMembers {ht : Bool} {sel : List Player} {p : Player}
    (hall : ∀ q ∈ sel, q.position = posGK ∨ q.position = posDEF ∨ q.position = posMID ∨
      q.position = posFWD)
    (hp : p ∈ sel) : playerInfo ht p ∈ squadMembers (buildSquad ht sel) :=
  (squadMembers_perm hall).mem_iff.mpr (List.mem_map_of_mem (playerInfo ht) hp)

theorem multiGoFull_length (players : List Player) (ht : Bool) (bud : Int) :
    ∀ (k i : Nat) (excluded : List Nat),
      (multiGoFull players ht bud k i excluded).length ≤ k := by
  intro k
  induction k with
  | zero => intro i ex; simp [multiGoFull]
  | succ k ih =>
    intro i ex
    simp only [multiGoFull]
    split
    · simp
    · split
      · simp
      · simpa using ih _ _

theorem mem_available {players : List Player} {excluded : List Nat} {p : Player}
    (hp : p ∈ players.filter (fun q => !(excluded.contains q.id))) :
    p ∈ players ∧ p.id ∉ excluded := by
  obtain ⟨hmem, hc⟩ := List.mem_filter.mp hp
  refine ⟨hmem, ?_⟩
  simpa [List.contains, List.elem_eq_mem] using hc

theorem sel_id_mem_excludeUpdate {ht : Bool} {bud : Int}
    {available sel : List Player} {excluded : List Nat}
    (hbs : bestSquad available ht bud = some sel) {p : Player} (hp : p ∈ sel) :
    p.id ∈ excludeUpdate available (buildSquad ht sel) excluded := by
  obtain ⟨hsub, hf⟩ := bestSquad_sound hbs
  have hall := feasible_pos_cover hf
  have hinfo : playerInfo ht p ∈ squadMembers (buildSquad ht sel) :=
    info_mem_squadMembers hall hp
  have hname : p.name ∈ (squadMembers (buildSquad ht sel)).map PlayerInfo.name :=
    List.mem_map.mpr ⟨playerInfo ht p, hinfo, rfl⟩
  unfold excludeUpdate
  refine List.mem_append_right _ (List.mem_map.mpr ⟨p, List.mem_filter.mpr ⟨hsub.subset hp, ?_⟩, rfl⟩)
  have : p.name ∈ ((buildSquad ht sel).goalkeepers ++ (buildSquad ht sel).defenders ++
      (buildSquad ht sel).midfielders ++ (buildSquad ht sel).forwards).map PlayerInfo.name :=
    hname
  simpa [List.contains, List.elem_eq_mem] using this

theorem multiGoFull_disjoint_aux (players : List Player) (ht : Bool) (bud : Int) :
    ∀ (k i : Nat) (excluded : List Nat),
      (∀ e ∈ multiGoFull players ht bud k i excluded, ∀ p ∈ e.2, p.id ∉ excluded) ∧
      List.Pairwise (fun a b => ∀ q ∈ a.2.map Player.id, q ∉ b.2.map Player.id)
        (multiGoFull players ht bud k i excluded) := by
  intro k
  induction k with
  | zero => intro i ex; exact ⟨by simp [multiGoFull], by simp [multiGoFull]⟩
  | succ k ih =>
    intro i ex
    simp only [multiGoFull]
    split
    · exact ⟨by simp, by simp⟩
    · cases hbs : bestSquad (players.filter (fun p => !(ex.contains p.id))) ht bud with
      | none => exact ⟨by simp, by simp⟩
      | some sel =>
        obtain ⟨ih1, ih2⟩ := ih (i + 1)
          (excludeUpdate (players.filter (fun p => !(ex.contains p.id)))
            (buildSquad ht sel) ex)
        constructor
        · intro e he p hp
          rcases List.mem_cons.mp he with rfl | he'
          · exact (mem_available ((bestSquad_sound hbs).1.subset hp)).2
          · intro hin
            have hnot := ih1 e he' p hp
            exact hnot (List.mem_append_left _ hin)
        · refine List.Pairwise.cons ?_ ih2
          intro b hb q hq hq'
          obtain ⟨p, hp, rfl⟩ := List.mem_map.mp hq
          obtain ⟨p', hp', hpq⟩ := List.mem_map.mp hq'
          have h1 : p.id ∈ excludeUpdate (players.filter (fun r => !(ex.contains r.id)))
              (buildSquad ht sel) ex := sel_id_mem_excludeUpdate hbs hp
          have h2 := ih1 b hb p' hp'
          rw [hpq] at h2
          exact h2 h1

/-- C1: for every pool and budget admitting a feasible selection, the solve
succeeds, and the returned squad total predicted score is attained by a
feasible selection from the pool and is not exceeded by any other feasible
selection (equivalently, it equals the maximum over the brute-force
enumeration `subsets` of all feasible combinations). -/
theorem optimize_squad_optimal {pool : Pool} {budget : Int} {t0 : List Player}
    (hsub0 : List.Sublist t0 pool.players)
    (hf0 : feasible (poolTeams pool.players pool.hasTeam) budget t0 = true) :
    ∃ sq, optimize_squad pool budget = .success sq ∧
      (∃ t, List.Sublist t pool.players ∧
        feasible (poolTeams pool.players pool.hasTeam) budget t = true ∧
        totalPoints t = sq.total_predicted) ∧
      (∀ t, List.Sublist t pool.players →
        feasible (poolTeams pool.players pool.hasTeam) budget t = true →
        totalPoints t ≤ sq.total_predicted) ∧
      ∀ t ∈ subsets pool.players,
        feasible (poolTeams pool.players pool.hasTeam) budget t = true →
        totalPoints t ≤ sq.total_predicted := by
  obtain ⟨sel, hbs, -⟩ := bestSquad_complete hsub0 hf0
  obtain ⟨hsub, hf⟩ := bestSquad_sound hbs
  have hbound : ∀ t, List.Sublist t pool.players →
      feasible (poolTeams pool.players pool.hasTeam) budget t = true →
      totalPoints t ≤ totalPoints sel := by
    intro t ht hft
    obtain ⟨sel2, hbs2, hpts⟩ := bestSquad_complete ht hft
    rw [hbs] at hbs2
    injection hbs2 with he
    rw [← he] at hpts
    exact hpts
  refine ⟨buildSquad pool.hasTeam sel, ?_, ?_, ?_, ?_⟩
  · unfold optimize_squad
    rw [hbs]
  · exact ⟨sel, hsub, hf, by rw [buildSquad_total_predicted]⟩
  · intro t ht hft
    rw [buildSquad_total_predicted]
    exact hbound t ht hft
  · intro t htm hft
    rw [buildSquad_total_predicted]
    exact hbound t (mem_subsets.mp htm) hft

/-- Witness for C1: the demo pool itself is a feasible selection, so the
solve succeeds with a score at least as high as any feasible selection. -/
theorem optimize_squad_optimal_witness :
    ∃ sq, optimize_squad ⟨demoPlayers, true⟩ 1000 = .success sq ∧
      (∃ t, List.Sublist t demoPlayers ∧
        feasible (poolTeams demoPlayers true) 1000 t = true ∧
        totalPoints t = sq.total_predicted) ∧
      (∀ t, List.Sublist t demoPlayers →
        feasible (poolTeams demoPlayers true) 1000 t = true →
        totalPoints t ≤ sq.total_predicted) ∧
      ∀ t ∈ subsets demoPlayers,
        feasible (poolTeams demoPlayers true) 1000 t = true →
        totalPoints t ≤ sq.total_predicted :=
  @optimize_squad_optimal ⟨demoPlayers, true⟩ 1000 demoPlayers
    (by decide) (by decide)

/-- C2: every squad returned with success status satisfies the quotas
(2 GK, 5 DEF, 5 MID, 3 FWD), costs at most the budget, and (when the pool
carries a team column) has at most 3 members of any one team. -/
theorem optimize_squad_feasible {pool : Pool} {budget : Int} {sq : SquadResult}
    (h : optimize_squad pool budget = .success sq) :
    sq.goalkeepers.length = 2 ∧ sq.defenders.length = 5 ∧ sq.midfielders.length = 5 ∧
    sq.forwards.length = 3 ∧ sq.total_cost ≤ budget ∧
    (pool.hasTeam = true → ∀ t : String,
      ((squadMembers sq).filter (fun m => m.team = t)).length ≤ 3) := by
  obtain ⟨sel, hbs, rfl⟩ := optimize_squad_success h
  obtain ⟨hsub, hf⟩ := bestSquad_sound hbs
  obtain ⟨hbud, hlen, h1, h2, h3, h4, hteam⟩ := feasible_iff.mp hf
  have hall := feasible_pos_cover hf
  refine ⟨?_, ?_, ?_, ?_, ?_, ?_⟩
  · rw [buildSquad_gk_length, h1]
  · rw [buildSquad_def_length, h2]
  · rw [buildSquad_mid_length, h3]
  · rw [buildSquad_fwd_length, h4]
  · rw [buildSquad_total_cost]; exact hbud
  · intro hht t
    rw [hht] at hteam hbs ⊢
    rw [squadMembers_team_count hall t]
    by_cases hmem : t ∈ poolTeams pool.players true
    · exact hteam t hmem
    · have hnone : sel.filter (fun p => p.team = t) = [] := by
        rw [List.filter_eq_nil_iff]
        intro p hp hpt
        refine hmem ?_
        unfold poolTeams
        rw [if_pos rfl]
        exact List.mem_dedup.mpr (List.mem_map.mpr
          ⟨p, hsub.subset hp, by simpa using hpt⟩)
      rw [hnone]
      simp

/-- Witness for C2 at the demo pool: the returned total cost respects the
budget and team A contributes at most three members. -/
theorem optimize_squad_feasible_witness :
    (buildSquad true demoPlayers).total_cost ≤ 1000 ∧
    ((squadMembers (buildSquad true demoPlayers)).filter
      (fun m => m.team = "A")).length ≤ 3 :=
  ⟨(@optimize_squad_feasible ⟨demoPlayers, true⟩ 1000 (buildSquad true demoPlayers)
      (by decide)).2.2.2.2.1,
   (@optimize_squad_feasible ⟨demoPlayers, true⟩ 1000 (buildSquad true demoPlayers)
      (by decide)).2.2.2.2.2 rfl ("A")⟩

/-- C5: for every solved squad, the displayed with-bonus total equals the
sum of predicted points over all 15 members plus the captain's predicted
points once more, where the captain is one of the members. -/
theorem total_with_captain_eq {pool : Pool} {budget : Int} {sq : SquadResult}
    (h : optimize_squad pool budget = .success sq) :
    ∃ c ∈ squadMembers sq, sq.captain = c.name ∧
      sq.captain_points = c.predicted_points ∧
      sq.total_with_captain =
        ((squadMembers sq).map PlayerInfo.predicted_points).sum + c.predicted_points ∧
      (squadMembers sq).length = 15 := by
  obtain ⟨sel, hbs, rfl⟩ := optimize_squad_success h
  obtain ⟨hsub, hf⟩ := bestSquad_sound hbs
  have hall := feasible_pos_cover hf
  have hlen15 : (squadMembers (buildSquad pool.hasTeam sel)).length = 15 := by
    rw [squadMembers_length hall, feasible_length hf]
  have hne : squadMembers (buildSquad pool.hasTeam sel) ≠ [] := by
    intro h0
    rw [h0] at hlen15
    cases hlen15
  obtain ⟨x, xs, hm⟩ := List.exists_cons_of_ne_nil hne
  obtain ⟨c, l1, l2, hmax, hdec, hlt, hle⟩ := @maxInfo_spec x xs
  have hcap : (buildSquad pool.hasTeam sel).captain = c.name := by
    rw [buildSquad_captain, hm, hmax]
    rfl
  have hcp : (buildSquad pool.hasTeam sel).captain_points = c.predicted_points := by
    rw [buildSquad_captain_points, hm, hmax]
    rfl
  have hc_mem : c ∈ squadMembers (buildSquad pool.hasTeam sel) := by
    rw [hm, hdec]
    exact List.mem_append.mpr (Or.inr (List.mem_cons_self c l2))
  refine ⟨c, hc_mem, hcap, hcp, ?_, hlen15⟩
  have hsum := @squadMembers_points_sum pool.hasTeam sel hall
  rw [buildSquad_total_with_captain, hm, hmax, hsum.symm, hm]
  rfl

/-- Witness for C5 at the demo pool: instantiated bonus-total equation. -/
theorem total_with_captain_eq_witness :
    ∃ c ∈ squadMembers (buildSquad true demoPlayers),
      (buildSquad true demoPlayers).captain = c.name ∧
      (buildSquad true demoPlayers).captain_points = c.predicted_points ∧
      (buildSquad true demoPlayers).total_with_captain =
        ((squadMembers (buildSquad true demoPlayers)).map
          PlayerInfo.predicted_points).sum + c.predicted_points ∧
      (squadMembers (buildSquad true demoPlayers)).length = 15 :=
  @total_with_captain_eq ⟨demoPlayers, true⟩ 1000 (buildSquad true demoPlayers)
    (by decide)

/-- C10: a candidate whose position is outside the four categories is never
selected, and the four position lists of a successful result have lengths
summing to 15. -/
theorem squad_positions_partition (pool : Pool) (budget : Int) :
    (∀ sel, bestSquad pool.players pool.hasTeam budget = some sel →
      ∀ p ∈ sel, p.position = posGK ∨ p.position = posDEF ∨ p.position = posMID ∨
        p.position = posFWD) ∧
    ∀ sq, optimize_squad pool budget = .success sq →
      sq.goalkeepers.length + sq.defenders.length + sq.midfielders.length +
        sq.forwards.length = 15 := by
  constructor
  · intro sel hbs
    exact feasible_pos_cover (bestSquad_sound hbs).2
  · intro sq h
    obtain ⟨sel, hbs, rfl⟩ := optimize_squad_success h
    obtain ⟨-, -, h1, h2, h3, h4, -⟩ := feasible_iff.mp (bestSquad_sound hbs).2
    rw [buildSquad_gk_length, buildSquad_def_length, buildSquad_mid_length,
      buildSquad_fwd_length, h1, h2, h3, h4]

/-- Witness for C10 at the demo pool: the first demo player is in one of the
four categories, and the four reported lists have lengths summing to 15. -/
theorem squad_positions_partition_witness :
    ((⟨1, "g1", "A", "GK", 40, 30⟩ : Player).position = posGK ∨
      (⟨1, "g1", "A", "GK", 40, 30⟩ : Player).position = posDEF ∨
      (⟨1, "g1", "A", "GK", 40, 30⟩ : Player).position = posMID ∨
      (⟨1, "g1", "A", "GK", 40, 30⟩ : Player).position = posFWD) ∧
    (buildSquad true demoPlayers).goalkeepers.length +
      (buildSquad true demoPlayers).defenders.length +
      (buildSquad true demoPlayers).midfielders.length +
      (buildSquad true demoPlayers).forwards.length = 15 :=
  ⟨(squad_positions_partition ⟨demoPlayers, true⟩ 1000).1 demoPlayers (by decide)
      ⟨1, "g1", "A", "GK", 40, 30⟩ (by decide),
   (squad_positions_partition ⟨demoPlayers, true⟩ 1000).2 (buildSquad true demoPlayers)
      (by decide)⟩

/-- C6 counterexample: in the solved squad from `c6players` the defender
Alice (candidate id 1, the smallest id in the pool) ties the goalkeeper Zed
(id 14) for the maximal predicted points (both equal the reported captain
points), yet the reported captain is Zed, not Alice — so ties are not broken
by smallest candidate id. -/
theorem captain_smallest_id_counterexample :
    bestSquad c6players true 1000 = some c6players ∧
    optimize_squad ⟨c6players, true⟩ 1000 = .success (buildSquad true c6players) ∧
    (⟨1, "Alice", "t1", "DEF", 50, 100⟩ : Player) ∈ c6players ∧
    (⟨14, "Zed", "t1", "GK", 40, 100⟩ : Player) ∈ c6players ∧
    (∀ p ∈ c6players, 1 ≤ p.id) ∧
    (∀ p ∈ c6players, p.predicted_points ≤ 100) ∧
    (c6players.map Player.name).Nodup ∧
    (buildSquad true c6players).captain_points = 100 ∧
    (buildSquad true c6players).captain = "Zed" := by
  refine ⟨by decide, by decide, by decide, by decide, by decide, by decide,
    by decide, by decide, by decide⟩

/-- C6 amended: the captain of a solved squad is a member attaining the
maximal predicted points; on ties the captain is the first such member in
the position-ordered listing (goalkeepers, then defenders, midfielders,
forwards), not the one with the smallest candidate id. -/
theorem captain_first_max {pool : Pool} {budget : Int} {sq : SquadResult}
    (h : optimize_squad pool budget = .success sq) :
    ∃ c l1 l2, squadMembers sq = l1 ++ c :: l2 ∧ sq.captain = c.name ∧
      sq.captain_points = c.predicted_points ∧
      (∀ m ∈ l1, m.predicted_points < c.predicted_points) ∧
      ∀ m ∈ squadMembers sq, m.predicted_points ≤ c.predicted_points := by
  obtain ⟨sel, hbs, rfl⟩ := optimize_squad_success h
  obtain ⟨hsub, hf⟩ := bestSquad_sound hbs
  have hall := feasible_pos_cover hf
  have hlen15 : (squadMembers (buildSquad pool.hasTeam sel)).length = 15 := by
    rw [squadMembers_length hall, feasible_length hf]
  have hne : squadMembers (buildSquad pool.hasTeam sel) ≠ [] := by
    intro h0
    rw [h0] at hlen15
    cases hlen15
  obtain ⟨x, xs, hm⟩ := List.exists_cons_of_ne_nil hne
  obtain ⟨c, l1, l2, hmax, hdec, hlt, hle⟩ := @maxInfo_spec x xs
  refine ⟨c, l1, l2, by rw [hm, hdec], ?_, ?_, hlt, ?_⟩
  · rw [buildSquad_captain, hm, hmax]
    rfl
  · rw [buildSquad_captain_points, hm, hmax]
    rfl
  · rw [hm]
    exact hle

/-- Witness for the amended C6 at the demo pool. -/
theorem captain_first_max_witness :
    ∃ c l1 l2, squadMembers (buildSquad true demoPlayers) = l1 ++ c :: l2 ∧
      (buildSquad true demoPlayers).captain = c.name ∧
      (buildSquad true demoPlayers).captain_points = c.predicted_points ∧
      (∀ m ∈ l1, m.predicted_points < c.predicted_points) ∧
      ∀ m ∈ squadMembers (buildSquad true demoPlayers),
        m.predicted_points ≤ c.predicted_points :=
  @captain_first_max ⟨demoPlayers, true⟩ 1000 (buildSquad true demoPlayers)
    (by decide)

/-- C8 counterexample: three differently caused infeasible inputs — a
category shortfall (one goalkeeper), a budget below any quota-satisfying
combination, and an unsatisfiable team cap — produce byte-identical failure
values, so the failure carries no machine-distinguishable detail about the
cause. -/
theorem infeasible_kinds_indistinguishable :
    optimize_squad ⟨c8shortPlayers, true⟩ 1000 = .failed noSolutionMsg ∧
    optimize_squad ⟨demoPlayers, true⟩ 10 = .failed noSolutionMsg ∧
    optimize_squad ⟨c8teamPlayers, true⟩ 1000 = .failed noSolutionMsg ∧
    optimize_squad ⟨c8shortPlayers, true⟩ 1000 = optimize_squad ⟨demoPlayers, true⟩ 10 ∧
    optimize_squad ⟨demoPlayers, true⟩ 10 = optimize_squad ⟨c8teamPlayers, true⟩ 1000 := by
  refine ⟨by decide, by decide, by decide, by decide, by decide⟩

/-- C8 amended: whenever no selection from the pool satisfies all
constraints, `optimize_squad` returns the structured failure value with the
fixed message, rather than raising; the failure is one generic kind. -/
theorem infeasible_returns_failure {pool : Pool} {budget : Int}
    (h : ∀ t ∈ subsets pool.players,
      feasible (poolTeams pool.players pool.hasTeam) budget t = false) :
    optimize_squad pool budget = .failed noSolutionMsg := by
  unfold optimize_squad
  cases hbs : bestSquad pool.players pool.hasTeam budget with
  | none => rfl
  | some sel =>
    obtain ⟨hsub, hf⟩ := bestSquad_sound hbs
    rw [h sel (mem_subsets.mpr hsub)] at hf
    cases hf

/-- Witness for the amended C8: the tiny three-player pool admits no
feasible selection and the solve reports the structured failure. -/
theorem infeasible_returns_failure_witness :
    optimize_squad ⟨tinyPlayers, true⟩ 1000 = .failed noSolutionMsg :=
  @infeasible_returns_failure ⟨tinyPlayers, true⟩ 1000 (by decide)

/-- C9: when the pool has no team column, every reported squad member's team
is the fallback string, and the solve imposes no per-team cap at all — on
the concrete one-club pool it returns a squad whose fifteen selected players
all share that club. -/
theorem no_team_column_behavior :
    (∀ (pool : Pool) (budget : Int) (sq : SquadResult), pool.hasTeam = false →
      optimize_squad pool budget = .success sq →
      ∀ m ∈ squadMembers sq, m.team = unknownTeam) ∧
    bestSquad c9players false 1000 = some c9players ∧
    3 < (c9players.filter (fun p => p.team = "Leeds")).length := by
  refine ⟨?_, by decide, by decide⟩
  intro pool budget sq hht h m hm
  obtain ⟨sel, hbs, rfl⟩ := optimize_squad_success h
  rw [hht] at hm
  obtain ⟨p, hp, rfl⟩ := squadMembers_mem_info hm
  rfl

/-- Witness for C9: the first member of the squad solved from the one-club
pool without a team column is reported with the fallback team. -/
theorem no_team_column_behavior_witness :
    (⟨"p1", unknownTeam, 40, 30⟩ : PlayerInfo).team = unknownTeam :=
  (no_team_column_behavior).1 ⟨c9players, false⟩ 1000 (buildSquad false c9players)
    rfl (by decide) ⟨"p1", unknownTeam, 40, 30⟩ (by decide)

/-- C4: the rounds produced by the multi-squad generator are pairwise
disjoint in candidate identity: no candidate id appears in the underlying
selections of two different returned squads. -/
theorem multi_squads_disjoint (pool : Pool) (num_squads : Nat) (budget : Int) :
    List.Pairwise (fun a b => ∀ q ∈ a.2.map Player.id, q ∉ b.2.map Player.id)
      (optimize_multiple_squads_full pool num_squads budget) :=
  (multiGoFull_disjoint_aux pool.players pool.hasTeam budget num_squads 0 []).2

/-- C7: `optimize_multiple_squads` returns a plain list (never an error),
of length at most the requested count; it returns the empty list when the
pool holds fewer than 15 players, and likewise when the first round's solve
reports the failure dictionary. -/
theorem multi_squads_early_stop (pool : Pool) (num_squads : Nat) (budget : Int) :
    (optimize_multiple_squads pool num_squads budget).length ≤ num_squads ∧
    (pool.players.length < 15 → optimize_multiple_squads pool num_squads budget = []) ∧
    ∀ msg, 0 < num_squads → optimize_squad pool budget = .failed msg →
      optimize_multiple_squads pool num_squads budget = [] := by
  have hav : pool.players.filter (fun p => !(([] : List Nat).contains p.id)) =
      pool.players :=
    List.filter_eq_self.mpr (fun a _ => rfl)
  refine ⟨?_, ?_, ?_⟩
  · unfold optimize_multiple_squads optimize_multiple_squads_full
    rw [List.length_map]
    exact multiGoFull_length pool.players pool.hasTeam budget num_squads 0 []
  · intro hlt
    unfold optimize_multiple_squads optimize_multiple_squads_full
    cases num_squads with
    | zero => simp [multiGoFull]
    | succ k =>
      simp only [multiGoFull, hav]
      rw [if_pos hlt]
      rfl
  · intro msg hn h
    obtain ⟨hbs, -⟩ := optimize_squad_failed h
    cases num_squads with
    | zero => cases hn
    | succ k =>
      unfold optimize_multiple_squads optimize_multiple_squads_full
      simp only [multiGoFull, hav]
      split
      · rfl
      · rw [hbs]
        rfl

/-- Witness for C7 on the three-player pool: one round requested, length
bound holds, and both early-stop hypotheses are dischargeable there. -/
theorem multi_squads_early_stop_witness :
    (optimize_multiple_squads ⟨tinyPlayers, true⟩ 1 1000).length ≤ 1 ∧
    optimize_multiple_squads ⟨tinyPlayers, true⟩ 1 1000 = [] :=
  ⟨(multi_squads_early_stop ⟨tinyPlayers, true⟩ 1 1000).1,
   (multi_squads_early_stop ⟨tinyPlayers, true⟩ 1 1000).2.2 noSolutionMsg
     (by decide) (by decide)⟩

/-- C3 evidence: `c3players` holds two distinct candidates both displayed
as Bob (ids 1 and 16); the first round selects ids 1 to 15 (id 16 is never
selected), yet the exclusion set built from that round contains id 16, and
the second round's available pool is empty, so the generator stops after one
squad: selecting one Bob excluded the other from all later rounds. -/
theorem name_collision_over_exclusion :
    (⟨1, "Bob", "A", "GK", 40, 50⟩ : Player) ∈ c3players ∧
    (⟨16, "Bob", "F", "GK", 40, 0⟩ : Player) ∈ c3players ∧
    bestSquad c3players true 1000 = some c3sel ∧
    optimize_squad ⟨c3players, true⟩ 1000 = .success (buildSquad true c3sel) ∧
    16 ∉ c3sel.map Player.id ∧
    16 ∈ excludeUpdate c3players (buildSquad true c3sel) [] ∧
    c3players.filter
      (fun p => !((excludeUpdate c3players (buildSquad true c3sel) []).contains p.id)) =
      [] ∧
    optimize_multiple_squads_full ⟨c3players, true⟩ 2 1000 =
      [(⟨1, squadNameFor 1, descriptionFor 1, buildSquad true c3sel⟩, c3sel)] := by
  refine ⟨by decide, by decide, by decide, by decide, by decide, by decide,
    by decide, by decide⟩
